import Mathlib

/-!
Verification development for the pooling JIT kernel generator
(`src/gpu/jit/pooling/ir_builder.cpp`).

The development shallowly embeds the parts of the builder that the
properties below are about:

* `reduce_dim` and the adaptive retry loop of `pooling_ir_builder_t::build`
  (grid shrinking and its termination);
* the tail of `pooling_ir_builder_t::try_build` (lowering pipeline plus the
  register-budget feasibility check);
* the accumulator-type selection, the accumulator / read-buffer
  initialization values, the average-pooling divisor, the out-of-range
  batch guard and the statement assembly of `try_build`;
* `pooling_post_op_view_mapper_t::normalize_mask`.

C++ `int` values are modelled as `Int`; `/` and `%` on nonnegative values
coincide with C++ truncating division, and all division facts proved below
are used under positivity hypotheses that make the two agree.
-/

namespace PoolingIR

/-- The ascending small-prime list hardcoded in `reduce_dim`
(`ir_builder.cpp:121`). -/
def smallPrimes : List Int := [2, 3, 5, 7, 11, 13, 17, 19, 23, 29, 31]

/-- Embedding of `reduce_dim(int &dn, int &up, int scale)`
(`ir_builder.cpp:120-129`).  The C++ mutates `dn` and `up` in place; here the
pair `(dn', up')` of their final values is returned.  The loop over the prime
array returning at the first divisor is expressed with `List.find?`. -/
def reduce_dim (dn up scale : Int) : Int × Int :=
  match smallPrimes.find? (fun p => dn % (p * scale) == 0) with
  | some p => (dn / p, up * p)
  | none => (scale, up * (dn / scale))

/-- The grid components read and written by the retry loop of
`pooling_ir_builder_t::build` (`ir_builder.cpp:131-148`): loop-grid axes 0
and 1 and kernel-grid axes 0 and 1.  The remaining grid components are not
touched by the loop. -/
structure GridCfg where
  lg0 : Int
  lg1 : Int
  kg0 : Int
  kg1 : Int
deriving DecidableEq, Repr

/-- One shrink step of the retry loop (`ir_builder.cpp:137-142`):
if `lg[0] > 1`, peel a factor of `lg[0]` into `kg[1]`; otherwise, if
`lg[1] / simd > 1`, peel a factor of `lg[1]` into `kg[0]` keeping `simd`
intact; otherwise the fatal `"minimal loop_grid too large!"` error fires,
modelled as `none`. -/
def buildStep (simd : Int) (c : GridCfg) : Option GridCfg :=
  if c.lg0 > 1 then
    let r := reduce_dim c.lg0 c.kg1 1
    some { c with lg0 := r.1, kg1 := r.2 }
  else if c.lg1 / simd > 1 then
    let r := reduce_dim c.lg1 c.kg0 simd
    some { c with lg1 := r.1, kg0 := r.2 }
  else none

/-- Outcome of the retry loop: a feasible configuration (the program built
from it passed the register check) or the fatal error state. -/
inductive BuildOutcome where
  | done (c : GridCfg)
  | fatalError
deriving DecidableEq, Repr

/-- The retry loop of `pooling_ir_builder_t::build` (`ir_builder.cpp:131-148`)
with explicit fuel.  `est c` models the peak-register estimate of the program
`try_build` produces for grid configuration `c`, and `budget` models
`exec.regs()`; per `ir_builder.cpp:577` the attempt is empty exactly when
`est c > budget`.  `none` means the fuel ran out (the loop would still be
running); the termination theorem shows a concrete fuel that always
suffices. -/
def buildLoop (est : GridCfg → Int) (budget simd : Int) :
    Nat → GridCfg → Option BuildOutcome
  | 0, _ => none
  | fuel + 1, c =>
    if est c > budget then
      match buildStep simd c with
      | some c' => buildLoop est budget simd fuel c'
      | none => some BuildOutcome.fatalError
    else some (BuildOutcome.done c)

/-- The pooling algorithm variants (`conf.alg`), as distinguished by
`try_build` (`ir_builder.cpp:420-421`). -/
inductive Alg where
  | pooling_max
  | pooling_avg_include_padding
  | pooling_avg_exclude_padding
deriving DecidableEq, Repr

/-- `is_max` flag of `try_build` (`ir_builder.cpp:420`). -/
def is_max_alg : Alg → Bool
  | Alg.pooling_max => true
  | _ => false

/-- `is_pad` flag of `try_build` (`ir_builder.cpp:421`). -/
def is_pad_alg : Alg → Bool
  | Alg.pooling_avg_include_padding => true
  | _ => false

/-- The fields of `pool_conf_t` that the embedded fragments of `try_build`
read: kernel window extents, input spatial extents, strides, front/top/left
padding and the true batch extent. -/
structure pool_conf where
  kd : Int
  kh : Int
  kw : Int
  id : Int
  ih : Int
  iw : Int
  stride_d : Int
  stride_h : Int
  stride_w : Int
  f_pad : Int
  t_pad : Int
  l_pad : Int
  mb : Int
deriving DecidableEq, Repr

/-- The per-axis dynamic overlap factor: embedding of the `dim` lambda of
`try_build` (`ir_builder.cpp:505-509`), evaluated at a concrete output
coordinate `o`.  An axis whose kernel extent is at most 1 contributes the
factor 1; otherwise the factor is
`min(o*stride - pad + k, input_extent) - max(o*stride - pad, 0)`. -/
def dim_overlap (o s p k i : Int) : Int :=
  if k ≤ 1 then 1 else min (o * s - p + k) i - max (o * s - p) 0

/-- The average-pooling divisor of `try_build` (`ir_builder.cpp:502-515`),
evaluated at a concrete output position `(od, oh, ow)`.  `filter` starts as
the static window volume `kd*kh*kw` and is replaced by the dynamic overlap
volume only when the algorithm is not padding-inclusive average and a spatial
boundary check is active.  (The surrounding code runs only for the two
average algorithms, i.e. when `is_max` is false.) -/
def avg_filter (c : pool_conf) (alg : Alg) (check_idhw : Bool)
    (od oh ow : Int) : Int :=
  if !(is_pad_alg alg) && check_idhw then
    dim_overlap od c.stride_d c.f_pad c.kd c.id
      * dim_overlap oh c.stride_h c.t_pad c.kh c.ih
      * dim_overlap ow c.stride_w c.l_pad c.kw c.iw
  else c.kd * c.kh * c.kw

/-- Reference count of window taps that land inside the input on one axis:
the number of kernel offsets `j < k` with `0 ≤ o*s - p + j < i`. -/
def overlap_count (o s p k i : Int) : Nat :=
  ((List.range k.toNat).filter
    (fun j => decide (0 ≤ o * s - p + (j : Int)) &&
              decide (o * s - p + (j : Int) < i))).length

/-- The numeric kind of the accumulator, as selected by `try_build`
(`ir_builder.cpp:426-428`): the source element kind, widened 32-bit float,
or widened signed 32-bit integer (each at `simd` lanes in the source). -/
inductive AccKind where
  | src_kind
  | f32
  | s32
deriving DecidableEq, Repr

/-- Embedding of the accumulator-type ternary of `try_build`
(`ir_builder.cpp:426-428`):
`(!read_type.is_int()) ? ((is_max) ? read_type : f32) : s32`. -/
def acc_type_of (read_is_int : Bool) (is_max : Bool) : AccKind :=
  if !read_is_int then (if is_max then AccKind.src_kind else AccKind.f32)
  else AccKind.s32

/-- Per-element initialization value broadcast into a register buffer by the
initialization statements of `try_build` (`ir_builder.cpp:445-484`). -/
inductive InitPattern where
  | negInf
  | fzero
  | ibits (v : Nat)
deriving DecidableEq, Repr

/-- `is_neg` of `try_build` (`ir_builder.cpp:460`): the integer init pattern
is the sign-bit pattern exactly for signed-integer max. -/
def is_neg_of (is_max read_is_signed : Bool) : Bool := is_max && read_is_signed

/-- The per-element value stored into the accumulator buffer
(`ir_builder.cpp:445-468`): `-INFINITY` or `0.f` for non-integer element
kinds, and the 32-bit pattern `0x80000000` (for signed max) or `0` otherwise
for integer element kinds (the accumulator is s32). -/
def acc_init (read_is_int is_max read_is_signed : Bool) : InitPattern :=
  if !read_is_int then
    (if is_max then InitPattern.negInf else InitPattern.fzero)
  else
    InitPattern.ibits (if is_neg_of is_max read_is_signed then 0x80000000 else 0)

/-- The packed 32-bit `v_init` constant of the read-buffer fill for integer
element kinds (`ir_builder.cpp:469-476`), where
`mult = sizeof(int32_t) / element_size`; the unreachable `default` branch
(`ir_assert(false)`) is modelled as `none`. -/
def v_init_of (is_neg : Bool) (mult : Nat) : Option Nat :=
  match mult with
  | 1 => some (if is_neg then 0x80000000 else 0)
  | 2 => some (if is_neg then 0x80008000 else 0)
  | 4 => some (if is_neg then 0x80808080 else 0)
  | _ => none

/-- The per-store value of the read-buffer fill statement
(`ir_builder.cpp:445-484`): for non-integer element kinds the same `init`
value as the accumulator; for integer kinds the packed `v_init`. -/
def fill_init (read_is_int is_max read_is_signed : Bool) (mult : Nat) :
    Option InitPattern :=
  if !read_is_int then
    some (if is_max then InitPattern.negInf else InitPattern.fzero)
  else
    (v_init_of (is_neg_of is_max read_is_signed) mult).map InitPattern.ibits

/-- Split a packed constant into `count` chunks of `w` bits each, least
significant chunk first (the layout of `mult` packed elements inside one
32-bit lane). -/
def chunksOf (v w count : Nat) : List Nat :=
  (List.range count).map (fun i => v / 2 ^ (w * i) % 2 ^ w)

/-- Reinterpret a `w`-bit pattern as a two's-complement signed value. -/
def to_signed (v w : Nat) : Int :=
  if v < 2 ^ (w - 1) then (v : Int) else (v : Int) - 2 ^ w

/-- The most negative representable value of a `w`-bit signed integer type. -/
def sintMin (w : Nat) : Int := -(2 ^ (w - 1))

/-- Per-lane state of the generated reduction: the read-buffer element and
the accumulator element. -/
structure LaneState where
  readBuf : Int
  acc : Int
deriving DecidableEq, Repr

/-- Semantics of one loop-nest iteration of the generated kernel for one
lane, with a boundary check active (`ir_builder.cpp:443-500`): the fill
statement stores the identity into the read buffer, the masked load then
overwrites it with the source element only when the lane is in range, and
the compute statement folds the read-buffer element into the accumulator
with `max` or `add`. -/
def pool_iter (is_max : Bool) (fillv : Int) (masked : Bool) (srcv : Int)
    (st : LaneState) : LaneState :=
  let rb := fillv
  let rb := if masked then rb else srcv
  ⟨rb, if is_max then max st.acc rb else st.acc + rb⟩

/-- Run the generated reduction over a window given per-tap
(masked?, source value) pairs, starting from accumulator value `accv`. -/
def pool_run (is_max : Bool) (fillv accv : Int)
    (window : List (Bool × Int)) : Int :=
  (window.foldl (fun st x => pool_iter is_max fillv x.1 x.2 st)
    ⟨0, accv⟩).acc

/-- Symbolic shape of the kernel statement assembled by `try_build`
(`ir_builder.cpp:433-554`).  Each atomic constructor stands for one block of
emitted instructions: the accumulator-init stores, the read-buffer fill
stores, the masked source read, the per-tile reduce stores, the divisor
stores, the epilogue invocation (which writes the destination), the
zero-broadcast stores into the read buffer, and the direct destination
write `write.stmt()`.  `if_mb_oob` is the `if_t` on `mb >= conf.mb`
(`ir_builder.cpp:541-542`) and `if_exit` the spatial-exit guard
(`ir_builder.cpp:553-554`). -/
inductive KStmt where
  | seq (a b : KStmt)
  | acc_init_store
  | fill_store
  | src_read
  | reduce_op
  | loop_nest (body : KStmt)
  | div_filter
  | epilogue_call
  | zero_read_buf
  | direct_write
  | if_mb_oob (t e : KStmt)
  | if_exit (s : KStmt)
deriving DecidableEq, Repr

/-- The statement built by `ir_builder.cpp:435-523`: the identity fast path
is just the read; otherwise accumulator init followed by the loop nest whose
body is the fill (only when a boundary check is active) followed by the
read-and-reduce, with the divisor stores appended for the average
algorithms. -/
def main_stmt (is_identity is_max check_idhw : Bool) : KStmt :=
  if is_identity then KStmt.src_read
  else
    let compute := KStmt.seq KStmt.src_read KStmt.reduce_op
    let core := KStmt.seq KStmt.acc_init_store
      (KStmt.loop_nest
        (if check_idhw then KStmt.seq KStmt.fill_store compute else compute))
    if !is_max then KStmt.seq core KStmt.div_filter else core

/-- The out-of-range batch guard of `ir_builder.cpp:534-543`: when the
padded batch extent `dims[0]` exceeds the true batch extent `conf.mb`, the
whole body (main statement plus epilogue) is wrapped in a conditional on
`mb >= conf.mb` whose taken branch zeroes the read buffer and directly
writes it out. -/
def mb_guarded (is_identity is_max check_idhw : Bool) (dims0 mb_conf : Int) :
    KStmt :=
  if dims0 > mb_conf then
    KStmt.if_mb_oob (KStmt.seq KStmt.zero_read_buf KStmt.direct_write)
      (KStmt.seq (main_stmt is_identity is_max check_idhw) KStmt.epilogue_call)
  else KStmt.seq (main_stmt is_identity is_max check_idhw) KStmt.epilogue_call

/-- The assembled statement including the optional spatial exit guard
(`ir_builder.cpp:545-554`). -/
def try_build_stmt (is_identity is_max check_idhw : Bool)
    (dims0 mb_conf : Int) (exit_needed : Bool) : KStmt :=
  if exit_needed then
    KStmt.if_exit (mb_guarded is_identity is_max check_idhw dims0 mb_conf)
  else mb_guarded is_identity is_max check_idhw dims0 mb_conf

/-- Whether a statement reads source memory (contains the masked source
load). -/
def touches_src : KStmt → Bool
  | KStmt.seq a b => touches_src a || touches_src b
  | KStmt.loop_nest b => touches_src b
  | KStmt.if_mb_oob t e => touches_src t || touches_src e
  | KStmt.if_exit s => touches_src s
  | KStmt.src_read => true
  | _ => false

/-- Whether a statement contains the reduction loop nest or a reduce
operation. -/
def has_reduction : KStmt → Bool
  | KStmt.seq a b => has_reduction a || has_reduction b
  | KStmt.loop_nest _ => true
  | KStmt.reduce_op => true
  | KStmt.if_mb_oob t e => has_reduction t || has_reduction e
  | KStmt.if_exit s => has_reduction s
  | _ => false

/-- Whether a statement contains the batch guard conditional. -/
def has_mb_guard : KStmt → Bool
  | KStmt.seq a b => has_mb_guard a || has_mb_guard b
  | KStmt.loop_nest b => has_mb_guard b
  | KStmt.if_mb_oob _ _ => true
  | KStmt.if_exit s => has_mb_guard s
  | _ => false

/-- Remove the outer spatial exit guard, when present. -/
def strip_exit : KStmt → KStmt
  | KStmt.if_exit s => s
  | s => s

/-- The fixed lowering pipeline that `try_build` runs the assembled
statement through (`ir_builder.cpp:561-572`), as abstract semantics-
preserving stages, plus the register-usage estimator `get_peak_regs`. -/
structure lowering_pipeline (σ : Type) where
  simplify1 : σ → σ
  lift_offsets : σ → σ
  inject_send : σ → σ
  split_wide_stores : σ → σ
  fix_int32_overflow : σ → σ
  eliminate_cse : σ → σ
  simplify2 : σ → σ
  optimize_alloc : σ → σ
  group_kernel : σ → σ
  peak_regs : σ → Int

/-- The fully lowered program: the assembled statement after every pipeline
stage, in source order (`ir_builder.cpp:561-570`). -/
def lowered {σ : Type} (P : lowering_pipeline σ) (assembled : σ) : σ :=
  P.group_kernel (P.optimize_alloc (P.simplify2 (P.eliminate_cse
    (P.fix_int32_overflow (P.split_wide_stores (P.inject_send
      (P.lift_offsets (P.simplify1 assembled))))))))

/-- The result of `try_build` (`ir_builder.cpp:572-577`): estimate the peak
register usage of the fully lowered statement and return the empty result
(`none`, modelling `stmt_t()`) when it exceeds the budget `exec.regs()`,
otherwise the finished statement. -/
def try_build_result {σ : Type} (P : lowering_pipeline σ) (budget : Int)
    (assembled : σ) : Option σ :=
  if P.peak_regs (lowered P assembled) > budget then none
  else some (lowered P assembled)

/-- A concrete pipeline instance over `Int` statements for the C2 witness:
each stage is a pure rewrite and the register estimate is the statement
itself. -/
def sample_pipeline : lowering_pipeline Int :=
  ⟨(· + 1), (· + 1), (· + 1), (· + 1), (· + 1), (· + 1), (· + 1), (· + 1),
    (· + 1), fun s => s⟩

/-- The dummy-extent vector of `normalize_mask` (`ir_builder.cpp:102-106`):
extent 2 (the sentinel `mask_set_value`) at each axis whose bit is set in
the original mask, extent 1 elsewhere, over the `orig_ndims`
pre-canonicalization axes. -/
def dummy_dims (orig_ndims : Nat) (orig_mask : Nat) : List Int :=
  (List.range orig_ndims).map (fun i => if orig_mask.testBit i then 2 else 1)

/-- Embedding of `pooling_post_op_view_mapper_t::normalize_mask`
(`ir_builder.cpp:97-115`), parametric in the spatials-to-3D reduction
`to3d` (the external `dims_to_3d` / `spatials_to_3d` canonicalization,
`ir_builder.cpp:92-95`): run the dummy extents through the reduction and
set bit `i` of the result for each canonical axis `i < cp_ndims` that still
carries the sentinel value 2. -/
def normalize_mask (to3d : List Int → List Int)
    (cp_ndims orig_ndims orig_mask : Nat) : Nat :=
  (List.range cp_ndims).foldl
    (fun m i =>
      if (to3d (dummy_dims orig_ndims orig_mask)).getD i 0 = 2 then
        m ||| (1 <<< i)
      else m) 0

lemma smallPrimes_two_le : ∀ p ∈ smallPrimes, (2 : Int) ≤ p := by
  intro p hp
  simp only [smallPrimes, List.mem_cons, List.not_mem_nil, or_false] at hp
  rcases hp with h | h | h | h | h | h | h | h | h | h | h <;> omega

lemma smallPrimes_sorted : smallPrimes.Pairwise (· ≤ ·) := by decide

/-- `List.find?` on a `≤`-sorted list returns a minimal matching element. -/
lemma find?_min_of_sorted {P : Int → Bool} :
    ∀ {l : List Int}, l.Pairwise (· ≤ ·) → ∀ {x : Int}, l.find? P = some x →
      ∀ y ∈ l, P y = true → x ≤ y := by
  intro l
  induction l with
  | nil => intro _ x hx; simp at hx
  | cons a t ih =>
    intro hpw x hx y hy hPy
    rcases List.pairwise_cons.mp hpw with ⟨hle, hpt⟩
    by_cases hPa : P a = true
    · rw [List.find?_cons_of_pos _ hPa] at hx
      cases hx
      rcases List.mem_cons.mp hy with rfl | hyt
      · exact le_refl _
      · exact hle y hyt
    · rw [List.find?_cons_of_neg _ (by simpa using hPa)] at hx
      rcases List.mem_cons.mp hy with rfl | hyt
      · exact absurd hPy hPa
      · exact ih hpt hx y hyt hPy

lemma reduce_dim_found {dn up scale p : Int} (hp : p ∈ smallPrimes)
    (hdvd : dn % (p * scale) = 0)
    (hmin : ∀ q ∈ smallPrimes, dn % (q * scale) = 0 → p ≤ q) :
    reduce_dim dn up scale = (dn / p, up * p) := by
  unfold reduce_dim
  rcases hfind : smallPrimes.find? (fun q => dn % (q * scale) == 0) with _ | q
  · exfalso
    have := List.find?_eq_none.mp hfind p hp
    simp [hdvd] at this
  · have hPq := List.find?_some hfind
    have hqmem : q ∈ smallPrimes := List.mem_of_find?_eq_some hfind
    have hq0 : dn % (q * scale) = 0 := by simpa using hPq
    have h1 : q ≤ p :=
      find?_min_of_sorted smallPrimes_sorted hfind p hp (by simp [hdvd])
    have h2 : p ≤ q := hmin q hqmem hq0
    have : q = p := le_antisymm h1 h2
    subst this
    rfl

/-- In the branch where a listed prime divides, the first component of
`reduce_dim` strictly shrinks (given something remains above `scale`) and
stays at least `scale`. -/
lemma reduce_dim_fst_bounds (dn up scale : Int) (hs : 0 < scale)
    (hlt : scale < dn) :
    (reduce_dim dn up scale).1 < dn ∧ scale ≤ (reduce_dim dn up scale).1 := by
  have hdn : 0 < dn := lt_trans hs hlt
  unfold reduce_dim
  rcases hfind : smallPrimes.find? (fun p => dn % (p * scale) == 0) with _ | p
  · exact ⟨hlt, le_refl _⟩
  · have hPp := List.find?_some hfind
    have hpmem : p ∈ smallPrimes := List.mem_of_find?_eq_some hfind
    have hp2 : (2 : Int) ≤ p := smallPrimes_two_le p hpmem
    have hp0 : (0 : Int) < p := by omega
    have hdvd : (p * scale) ∣ dn :=
      Int.dvd_of_emod_eq_zero (by simpa using hPp)
    have hpdvd : p ∣ dn := dvd_trans (Dvd.intro scale rfl) hdvd
    have hk : dn / p * p = dn := Int.ediv_mul_cancel hpdvd
    have hge : scale ≤ dn / p := by
      rw [Int.le_ediv_iff_mul_le hp0]
      calc scale * p = p * scale := mul_comm _ _
        _ ≤ dn := Int.le_of_dvd hdn hdvd
    have hkpos : 0 < dn / p := lt_of_lt_of_le hs hge
    have hlt' : dn / p < dn := by nlinarith [hk]
    exact ⟨hlt', hge⟩

/-- Invariant preservation and strict measure decrease of one shrink step:
starting from `1 ≤ lg0` and `simd ≤ lg1`, a successful `buildStep` keeps
those bounds and strictly decreases the loop-grid product `lg0 * lg1`. -/
lemma buildStep_decrease (simd : Int) (hs : 1 ≤ simd) (c c' : GridCfg)
    (h0 : 1 ≤ c.lg0) (h1 : simd ≤ c.lg1) (h : buildStep simd c = some c') :
    c'.lg0 * c'.lg1 < c.lg0 * c.lg1 ∧ 1 ≤ c'.lg0 ∧ simd ≤ c'.lg1 := by
  have hlg1pos : 0 < c.lg1 := lt_of_lt_of_le (by omega) h1
  unfold buildStep at h
  by_cases hA : c.lg0 > 1
  · rw [if_pos hA] at h
    cases h
    have hb := reduce_dim_fst_bounds c.lg0 c.kg1 1 (by omega) hA
    refine ⟨?_, hb.2, h1⟩
    show (reduce_dim c.lg0 c.kg1 1).1 * c.lg1 < c.lg0 * c.lg1
    exact mul_lt_mul_of_pos_right hb.1 hlg1pos
  · rw [if_neg hA] at h
    by_cases hB : c.lg1 / simd > 1
    · rw [if_pos hB] at h
      cases h
      have hsimd0 : (0 : Int) < simd := by omega
      have h2s : 2 * simd ≤ c.lg1 := by
        have := (Int.le_ediv_iff_mul_le hsimd0).mp (by omega : (2 : Int) ≤ c.lg1 / simd)
        linarith
      have hlt : simd < c.lg1 := by omega
      have hb := reduce_dim_fst_bounds c.lg1 c.kg0 simd hsimd0 hlt
      refine ⟨?_, h0, hb.2⟩
      show c.lg0 * (reduce_dim c.lg1 c.kg0 simd).1 < c.lg0 * c.lg1
      exact mul_lt_mul_of_pos_left hb.1 (by omega)
    · rw [if_neg hB] at h
      exact absurd h (by simp)

/-- Fuel sufficiency of the retry loop: fuel equal to the loop-grid product
always yields a definite outcome, and a `done` outcome is feasible. -/
lemma buildLoop_total (est : GridCfg → Int) (budget simd : Int)
    (hs : 1 ≤ simd) :
    ∀ n (c : GridCfg), 1 ≤ c.lg0 → simd ≤ c.lg1 →
      (c.lg0 * c.lg1).toNat ≤ n →
      ∃ out, buildLoop est budget simd n c = some out ∧
        ∀ d, out = BuildOutcome.done d → est d ≤ budget := by
  intro n
  induction n with
  | zero =>
    intro c h0 h1 hm
    exfalso
    have hpos : 0 < c.lg0 * c.lg1 :=
      mul_pos (by omega) (lt_of_lt_of_le (by omega) h1)
    omega
  | succ k ih =>
    intro c h0 h1 hm
    by_cases hfeas : est c > budget
    · rcases hstep : buildStep simd c with _ | c'
      · refine ⟨BuildOutcome.fatalError, ?_, by intro d hd; cases hd⟩
        simp [buildLoop, hfeas, hstep]
      · have hdec := buildStep_decrease simd hs c c' h0 h1 hstep
        have hm' : (c'.lg0 * c'.lg1).toNat ≤ k := by
          have h1' : 0 < c'.lg0 * c'.lg1 :=
            mul_pos (by omega)
              (lt_of_lt_of_le (by omega : (0 : Int) < simd) hdec.2.2)
          omega
        rcases ih c' hdec.2.1 hdec.2.2 hm' with ⟨out, hout, hP⟩
        refine ⟨out, ?_, hP⟩
        simpa [buildLoop, hfeas, hstep] using hout
    · refine ⟨BuildOutcome.done c, ?_, ?_⟩
      · simp [buildLoop, hfeas]
      · intro d hd
        cases hd
        omega

lemma pool_run_all_masked (fillv : Int) :
    ∀ (l : List (Bool × Int)) (accv rb0 : Int), (∀ x ∈ l, x.1 = true) →
      (l.foldl (fun st x => pool_iter true fillv x.1 x.2 st)
          ⟨rb0, accv⟩).acc
        = if l.isEmpty then accv else max accv fillv := by
  intro l
  induction l with
  | nil => intro accv rb0 _; rfl
  | cons a t ih =>
    intro accv rb0 hmask
    have ha : a.1 = true := hmask a (List.mem_cons_self a t)
    have hstep : pool_iter true fillv a.1 a.2 ⟨rb0, accv⟩
        = ⟨fillv, max accv fillv⟩ := by
      simp [pool_iter, ha]
    rw [List.foldl_cons, hstep,
      ih (max accv fillv) fillv (fun x hx => hmask x (List.mem_cons_of_mem a hx))]
    cases t with
    | nil => simp
    | cons b u => simp [max_assoc]

lemma sintMin_le (w : Nat) (hw : w ≤ 32) : sintMin 32 ≤ sintMin w := by
  unfold sintMin
  have : (2 : Int) ^ (w - 1) ≤ 2 ^ (32 - 1) :=
    pow_le_pow_right₀ (by omega) (by omega)
  omega

lemma mask_foldl_testBit (P : Nat → Prop) [DecidablePred P] :
    ∀ (n acc i : Nat),
      ((List.range n).foldl
          (fun m j => if P j then m ||| (1 <<< j) else m) acc).testBit i
        = (acc.testBit i || (decide (i < n) && decide (P i))) := by
  intro n
  induction n with
  | zero => intro acc i; simp
  | succ k ih =>
    intro acc i
    rw [List.range_succ, List.foldl_append]
    simp only [List.foldl_cons, List.foldl_nil]
    by_cases hc : P k
    · rw [if_pos hc, Nat.one_shiftLeft, Nat.testBit_lor, ih]
      by_cases hik : i = k
      · subst hik
        simp [Nat.testBit_two_pow_self, hc]
      · rw [Nat.testBit_two_pow_of_ne (fun h => hik h.symm)]
        have hd : decide (i < k) = decide (i < k + 1) :=
          decide_eq_decide.mpr (by omega)
        simp [hd]
    · rw [if_neg hc, ih]
      by_cases hik : i = k
      · subst hik
        simp [hc]
      · have hd : decide (i < k) = decide (i < k + 1) :=
          decide_eq_decide.mpr (by omega)
        simp [hd]

/-- C1: the retry loop of `pooling_ir_builder_t::build` terminates for every
operator configuration: every successful shrink step strictly decreases the
loop-grid product `lg[0] * lg[1]` (while preserving `1 ≤ lg[0]` and
`simd ≤ lg[1]`), and with fuel equal to the initial loop-grid product the
loop reaches a definite outcome — either a configuration whose estimated
peak register usage is at most the device register budget, or the fatal
"minimal loop_grid too large" error state — so it never loops forever. -/
theorem build_retry_loop_terminates (est : GridCfg → Int) (budget simd : Int)
    (c : GridCfg) (hs : 1 ≤ simd) (h0 : 1 ≤ c.lg0) (h1 : simd ≤ c.lg1) :
    (∀ d d', 1 ≤ d.lg0 → simd ≤ d.lg1 → buildStep simd d = some d' →
        d'.lg0 * d'.lg1 < d.lg0 * d.lg1 ∧ 1 ≤ d'.lg0 ∧ simd ≤ d'.lg1) ∧
    ∃ out, buildLoop est budget simd (c.lg0 * c.lg1).toNat c = some out ∧
        ∀ d, out = BuildOutcome.done d → est d ≤ budget := by
  refine ⟨fun d d' hd0 hd1 hstep => buildStep_decrease simd hs d d' hd0 hd1 hstep, ?_⟩
  exact buildLoop_total est budget simd hs _ c h0 h1 (le_refl _)

/-- Witness for C1 at a concrete configuration: simd 16, loop grid (4, 32),
an estimator that charges 100 registers for any loop-grid product above 16
and 50 otherwise, and a budget of 64 registers. -/
theorem build_retry_loop_terminates_witness :
    ∃ out, buildLoop (fun c => if c.lg0 * c.lg1 > 16 then 100 else 50) 64 16
        ((4 : Int) * 32).toNat ⟨4, 32, 8, 8⟩ = some out ∧
      ∀ d, out = BuildOutcome.done d →
        (if d.lg0 * d.lg1 > 16 then (100 : Int) else 50) ≤ 64 :=
  (build_retry_loop_terminates (fun c => if c.lg0 * c.lg1 > 16 then 100 else 50)
    64 16 ⟨4, 32, 8, 8⟩ (by decide) (by decide) (by decide)).2

/-- C10: `reduce_dim(dn, up, scale)` with `dn ≥ 1`, `scale ≥ 1` and
`scale ∣ dn` preserves the product `dn * up` (the factor removed from the
loop-grid component is exactly the factor added to the grid component) and
leaves `dn ≥ scale`; hence each retry-driver shrink conserves the total
dispatched work. -/
theorem reduce_dim_conserves_work (dn up scale : Int) (hdn : 1 ≤ dn)
    (hs : 1 ≤ scale) (hdvd : scale ∣ dn) :
    (reduce_dim dn up scale).1 * (reduce_dim dn up scale).2 = dn * up ∧
    scale ≤ (reduce_dim dn up scale).1 := by
  unfold reduce_dim
  rcases hfind : smallPrimes.find? (fun p => dn % (p * scale) == 0) with _ | p
  · constructor
    · have : dn / scale * scale = dn := Int.ediv_mul_cancel hdvd
      calc scale * (up * (dn / scale)) = dn / scale * scale * up := by ring
        _ = dn * up := by rw [this]
    · exact le_refl _
  · have hPp := List.find?_some hfind
    have hpmem : p ∈ smallPrimes := List.mem_of_find?_eq_some hfind
    have hp2 : (2 : Int) ≤ p := smallPrimes_two_le p hpmem
    have hpsdvd : (p * scale) ∣ dn :=
      Int.dvd_of_emod_eq_zero (by simpa using hPp)
    have hpdvd : p ∣ dn := dvd_trans (Dvd.intro scale rfl) hpsdvd
    have hk : dn / p * p = dn := Int.ediv_mul_cancel hpdvd
    constructor
    · calc dn / p * (up * p) = dn / p * p * up := by ring
        _ = dn * up := by rw [hk]
    · rw [Int.le_ediv_iff_mul_le (by omega : (0 : Int) < p)]
      calc scale * p = p * scale := mul_comm _ _
        _ ≤ dn := Int.le_of_dvd (by omega) hpsdvd

/-- Witness for C10: `reduce_dim 12 5 2` peels the prime 2 (the smallest
listed prime with `2 * 2 ∣ 12`), giving `(6, 10)`: the product `12 * 5 = 60`
is preserved and `2 ≤ 6`. -/
theorem reduce_dim_conserves_work_witness :
    (reduce_dim 12 5 2).1 * (reduce_dim 12 5 2).2 = 12 * 5 ∧
    (2 : Int) ≤ (reduce_dim 12 5 2).1 :=
  reduce_dim_conserves_work 12 5 2 (by decide) (by decide) (by decide)

/-- C3: the shrink policy of the retry driver.  The fatal error fires exactly
when `lg[0] ≤ 1` and `lg[1] / simd ≤ 1`; while `lg[0] > 1` the driver shrinks
loop-grid axis 0 into kernel-grid axis 1; otherwise, while `lg[1] / simd > 1`,
it shrinks the vectorized loop-grid axis 1 into kernel-grid axis 0 with the
vector width `simd` protected; and when some listed prime (times the scale)
divides the axis, `reduce_dim` peels exactly the smallest such prime from the
ascending small-prime list. -/
theorem retry_shrink_policy (simd : Int) (c : GridCfg) :
    (buildStep simd c = none ↔ c.lg0 ≤ 1 ∧ c.lg1 / simd ≤ 1) ∧
    (1 < c.lg0 → buildStep simd c =
      some { c with lg0 := (reduce_dim c.lg0 c.kg1 1).1,
                    kg1 := (reduce_dim c.lg0 c.kg1 1).2 }) ∧
    (c.lg0 ≤ 1 → 1 < c.lg1 / simd → buildStep simd c =
      some { c with lg1 := (reduce_dim c.lg1 c.kg0 simd).1,
                    kg0 := (reduce_dim c.lg1 c.kg0 simd).2 }) ∧
    (∀ dn up scale p, p ∈ smallPrimes → dn % (p * scale) = 0 →
      (∀ q ∈ smallPrimes, dn % (q * scale) = 0 → p ≤ q) →
      reduce_dim dn up scale = (dn / p, up * p)) := by
  refine ⟨?_, ?_, ?_, fun dn up scale p hp hdvd hmin => reduce_dim_found hp hdvd hmin⟩
  · constructor
    · intro h
      unfold buildStep at h
      by_cases hA : c.lg0 > 1
      · rw [if_pos hA] at h; cases h
      · rw [if_neg hA] at h
        by_cases hB : c.lg1 / simd > 1
        · rw [if_pos hB] at h; cases h
        · exact ⟨by omega, by omega⟩
    · rintro ⟨hA, hB⟩
      unfold buildStep
      rw [if_neg (by omega), if_neg (by omega)]
  · intro hA
    unfold buildStep
    rw [if_pos hA]
  · intro hA hB
    unfold buildStep
    rw [if_neg (by omega), if_pos hB]

/-- Witness for C3 at concrete inputs: with simd 16, from loop grid (6, 32)
the driver shrinks axis 0 into `kg[1]` peeling the prime 2; from loop grid
(1, 64) it shrinks axis 1 into `kg[0]` peeling 2 while keeping 16 intact;
from loop grid (1, 16) it raises the fatal error. -/
theorem retry_shrink_policy_witness :
    buildStep 16 ⟨6, 32, 8, 8⟩ = some ⟨3, 32, 8, 16⟩ ∧
    buildStep 16 ⟨1, 64, 8, 8⟩ = some ⟨1, 32, 16, 8⟩ ∧
    buildStep 16 ⟨1, 16, 8, 8⟩ = none ∧
    reduce_dim 45 7 3 = (45 / 3, 7 * 3) := by
  refine ⟨?_, ?_, ?_, ?_⟩
  · have h := (retry_shrink_policy 16 ⟨6, 32, 8, 8⟩).2.1 (by decide)
    rw [h]; decide
  · have h := (retry_shrink_policy 16 ⟨1, 64, 8, 8⟩).2.2.1 (by decide) (by decide)
    rw [h]; decide
  · exact (retry_shrink_policy 16 ⟨1, 16, 8, 8⟩).1.mpr (by decide)
  · exact (retry_shrink_policy 16 ⟨1, 16, 8, 8⟩).2.2.2 45 7 3 3 (by decide)
      (by decide) (by decide)

/-- C5: the average-pooling divisor is the static window volume `kd*kh*kw`
for padding-inclusive average, and also for padding-exclusive average when
no boundary check is active; only for padding-exclusive average with a
boundary check active is it the per-output-position dynamic overlap volume,
the product over the three spatial axes of
`min(o*stride - pad + k, input_extent) - max(o*stride - pad, 0)`, where an
axis with kernel extent at most 1 contributes the factor 1. -/
theorem avg_divisor_choice (c : pool_conf) (chk : Bool) (od oh ow : Int) :
    (avg_filter c Alg.pooling_avg_include_padding chk od oh ow
      = c.kd * c.kh * c.kw) ∧
    (avg_filter c Alg.pooling_avg_exclude_padding false od oh ow
      = c.kd * c.kh * c.kw) ∧
    (avg_filter c Alg.pooling_avg_exclude_padding true od oh ow
      = dim_overlap od c.stride_d c.f_pad c.kd c.id
        * dim_overlap oh c.stride_h c.t_pad c.kh c.ih
        * dim_overlap ow c.stride_w c.l_pad c.kw c.iw) ∧
    (∀ o s p k i, k ≤ 1 → dim_overlap o s p k i = 1) := by
  refine ⟨?_, rfl, rfl, ?_⟩
  · cases chk <;> rfl
  · intro o s p k i hk
    unfold dim_overlap
    rw [if_pos hk]

/-- Witness for C5: a 2x1x3 window over a 4x1x5 input with unit strides,
padding 1 on depth and width, evaluated at output position (0, 0, 0) under
an active boundary check: the divisor is the dynamic overlap volume, and the
height axis (kernel extent 1) contributes 1. -/
theorem avg_divisor_choice_witness :
    avg_filter ⟨2, 1, 3, 4, 1, 5, 1, 1, 1, 1, 0, 1, 1⟩
        Alg.pooling_avg_exclude_padding true 0 0 0
      = dim_overlap 0 1 1 2 4 * dim_overlap 0 1 0 1 1 * dim_overlap 0 1 1 3 5
    ∧ dim_overlap 0 1 0 1 1 = 1 := by
  refine ⟨(avg_divisor_choice ⟨2, 1, 3, 4, 1, 5, 1, 1, 1, 1, 0, 1, 1⟩
    true 0 0 0).2.2.1, ?_⟩
  exact (avg_divisor_choice ⟨2, 1, 3, 4, 1, 5, 1, 1, 1, 1, 0, 1, 1⟩
    true 0 0 0).2.2.2 0 1 0 1 1 (by decide)

/-- C6 counterexample: for one axis with input extent 5, kernel 3, stride 1
and ZERO padding, the output extent is 3 and the clamped-window overlap
equals 3 at every output position, including the first (o = 0) and the
last (o = 2) — not 2 as the claim states. -/
theorem overlap_zero_pad_cex :
    dim_overlap 0 1 0 3 5 = 3 ∧ dim_overlap 2 1 0 3 5 = 3 ∧
    ¬(dim_overlap 0 1 0 3 5 = 2) := by decide

/-- C6 (amended): for one axis with input extent 5, kernel 3, stride 1 and
padding 1 (output extent 5), the clamped-window overlap equals 2 at the
first and last output positions and 3 at the interior positions, each value
agreeing with the direct reference count of in-range window taps; with zero
padding (output extent 3) every output position yields overlap 3, again
matching the reference count. -/
theorem overlap_edge_values :
    (dim_overlap 0 1 1 3 5 = 2 ∧ dim_overlap 4 1 1 3 5 = 2) ∧
    (dim_overlap 1 1 1 3 5 = 3 ∧ dim_overlap 2 1 1 3 5 = 3 ∧
      dim_overlap 3 1 1 3 5 = 3) ∧
    (dim_overlap 0 1 1 3 5 = overlap_count 0 1 1 3 5 ∧
      dim_overlap 1 1 1 3 5 = overlap_count 1 1 1 3 5 ∧
      dim_overlap 2 1 1 3 5 = overlap_count 2 1 1 3 5 ∧
      dim_overlap 3 1 1 3 5 = overlap_count 3 1 1 3 5 ∧
      dim_overlap 4 1 1 3 5 = overlap_count 4 1 1 3 5) ∧
    (dim_overlap 0 1 0 3 5 = 3 ∧ dim_overlap 1 1 0 3 5 = 3 ∧
      dim_overlap 2 1 0 3 5 = 3 ∧
      dim_overlap 0 1 0 3 5 = overlap_count 0 1 0 3 5 ∧
      dim_overlap 1 1 0 3 5 = overlap_count 1 1 0 3 5 ∧
      dim_overlap 2 1 0 3 5 = overlap_count 2 1 0 3 5) := by decide

/-- C7: the accumulator numeric kind is determined by the algorithm and the
source element type alone: for a non-integer source it is the source element
kind under max-reduction and widened f32 under either average reduction; for
an integer source it is widened s32 for every algorithm. -/
theorem acc_type_choice :
    acc_type_of false (is_max_alg Alg.pooling_max) = AccKind.src_kind ∧
    acc_type_of false (is_max_alg Alg.pooling_avg_include_padding)
      = AccKind.f32 ∧
    acc_type_of false (is_max_alg Alg.pooling_avg_exclude_padding)
      = AccKind.f32 ∧
    (∀ alg, acc_type_of true (is_max_alg alg) = AccKind.s32) := by
  refine ⟨rfl, rfl, rfl, fun alg => by cases alg <;> rfl⟩

/-- C4: in every non-identity build the accumulator is initialized to the
reduction identity — negative infinity for floating-point max, the
`0x80...` most-negative pattern for signed-integer max, zero for sum and
for unsigned-integer max; the read-buffer fill stores the same identity
(the packed `v_init` decomposes into per-element most-negative patterns);
with a boundary check active the fill statement precedes the read and the
reduction inside every iteration of the loop nest; and therefore a max
window whose source elements are all masked out produces the most-negative
representable value of the source type, which is nonzero. -/
theorem reduction_identity_init :
    ((∀ sg, acc_init false true sg = InitPattern.negInf) ∧
     (∀ sg, acc_init false false sg = InitPattern.fzero) ∧
     acc_init true true true = InitPattern.ibits 0x80000000 ∧
     (∀ sg, acc_init true false sg = InitPattern.ibits 0) ∧
     acc_init true true false = InitPattern.ibits 0) ∧
    ((∀ im sg m, fill_init false im sg m = some (acc_init false im sg)) ∧
     ∀ mw ∈ [((1 : Nat), (32 : Nat)), (2, 16), (4, 8)],
       chunksOf ((v_init_of true mw.1).getD 0) mw.2 mw.1
           = List.replicate mw.1 (2 ^ (mw.2 - 1)) ∧
       chunksOf ((v_init_of false mw.1).getD 0) mw.2 mw.1
           = List.replicate mw.1 0 ∧
       to_signed (2 ^ (mw.2 - 1)) mw.2 = sintMin mw.2) ∧
    (main_stmt false true true
        = KStmt.seq KStmt.acc_init_store
            (KStmt.loop_nest (KStmt.seq KStmt.fill_store
              (KStmt.seq KStmt.src_read KStmt.reduce_op))) ∧
     main_stmt false false true
        = KStmt.seq
            (KStmt.seq KStmt.acc_init_store
              (KStmt.loop_nest (KStmt.seq KStmt.fill_store
                (KStmt.seq KStmt.src_read KStmt.reduce_op))))
            KStmt.div_filter ∧
     main_stmt false true false
        = KStmt.seq KStmt.acc_init_store
            (KStmt.loop_nest (KStmt.seq KStmt.src_read KStmt.reduce_op))) ∧
    (∀ w (window : List (Bool × Int)), 1 ≤ w → w ≤ 32 → window ≠ [] →
      (∀ x ∈ window, x.1 = true) →
      pool_run true (sintMin w) (sintMin 32) window = sintMin w ∧
      sintMin w ≠ 0) := by
  refine ⟨⟨fun sg => rfl, fun sg => rfl, rfl, fun sg => rfl, rfl⟩,
    ⟨fun im sg m => by cases im <;> rfl, by decide⟩, ⟨rfl, rfl, rfl⟩, ?_⟩
  intro w window hw1 hw32 hne hmask
  have hmin_pos : (0 : Int) < 2 ^ (w - 1) := pow_pos (by omega) _
  constructor
  · unfold pool_run
    rw [pool_run_all_masked (sintMin w) window (sintMin 32) 0 hmask]
    have hempty : window.isEmpty = false := by
      cases window with
      | nil => exact absurd rfl hne
      | cons a t => rfl
    rw [hempty, if_neg (by simp)]
    exact max_eq_right (sintMin_le w hw32)
  · unfold sintMin
    omega

/-- Witness for C4's quantified parts: the signed 8-bit case (mult 4) at a
fully masked 2-element window. -/
theorem reduction_identity_init_witness :
    (chunksOf ((v_init_of true 4).getD 0) 8 4 = List.replicate 4 (2 ^ 7) ∧
     chunksOf ((v_init_of false 4).getD 0) 8 4 = List.replicate 4 0 ∧
     to_signed (2 ^ 7) 8 = sintMin 8) ∧
    pool_run true (sintMin 8) (sintMin 32) [(true, 7), (true, -3)]
        = sintMin 8 ∧
    sintMin 8 ≠ 0 := by
  refine ⟨?_, ?_⟩
  · exact reduction_identity_init.2.1.2 (4, 8) (by decide)
  · exact reduction_identity_init.2.2.2 8 [(true, 7), (true, -3)] (by decide)
      (by decide) (by decide) (by decide)

/-- C9: the kernel body is wrapped in the `mb >= conf.mb` conditional if and
only if the padded batch extent exceeds the true batch extent; its taken
branch zeroes the read buffer and issues a direct destination store while
the not-taken branch is the normal body; and the taken branch never contains
the reduction loop and never touches source memory — for every algorithm
variant, identity flag and boundary-check state. -/
theorem batch_guard_structure (is_identity is_max check_idhw : Bool)
    (dims0 mb_conf : Int) (exit_needed : Bool) :
    (dims0 > mb_conf →
      strip_exit (try_build_stmt is_identity is_max check_idhw dims0 mb_conf
          exit_needed)
        = KStmt.if_mb_oob
            (KStmt.seq KStmt.zero_read_buf KStmt.direct_write)
            (KStmt.seq (main_stmt is_identity is_max check_idhw)
              KStmt.epilogue_call)) ∧
    has_mb_guard (try_build_stmt is_identity is_max check_idhw dims0 mb_conf
        exit_needed) = decide (dims0 > mb_conf) ∧
    touches_src (KStmt.seq KStmt.zero_read_buf KStmt.direct_write) = false ∧
    has_reduction (KStmt.seq KStmt.zero_read_buf KStmt.direct_write)
      = false := by
  have hmain : has_mb_guard (main_stmt is_identity is_max check_idhw)
      = false := by
    cases is_identity <;> cases is_max <;> cases check_idhw <;> rfl
  refine ⟨?_, ?_, rfl, rfl⟩
  · intro h
    unfold try_build_stmt mb_guarded
    rw [if_pos h]
    cases exit_needed <;> rfl
  · unfold try_build_stmt mb_guarded
    by_cases h : dims0 > mb_conf
    · rw [if_pos h]
      cases exit_needed <;> simp [has_mb_guard, h]
    · rw [if_neg h]
      cases exit_needed <;> simp [has_mb_guard, h, hmain]

/-- Witness for C9: max pooling with boundary checks, padded batch extent 4
against true batch 3, no exit guard. -/
theorem batch_guard_structure_witness :
    strip_exit (try_build_stmt false true true 4 3 false)
      = KStmt.if_mb_oob
          (KStmt.seq KStmt.zero_read_buf KStmt.direct_write)
          (KStmt.seq (main_stmt false true true) KStmt.epilogue_call) :=
  (batch_guard_structure false true true 4 3 false).1 (by decide)

/-- C2: `try_build` returns the empty (infeasible) result exactly when the
estimated peak register usage of the fully lowered program exceeds the
register budget; any non-empty result is the complete program after every
lowering stage — never a partially built one — and is feasible. -/
theorem try_build_all_or_nothing {σ : Type} (P : lowering_pipeline σ)
    (budget : Int) (assembled : σ) :
    (try_build_result P budget assembled = none ↔
      P.peak_regs (lowered P assembled) > budget) ∧
    (∀ s, try_build_result P budget assembled = some s →
      s = lowered P assembled ∧ P.peak_regs s ≤ budget) := by
  unfold try_build_result
  by_cases h : P.peak_regs (lowered P assembled) > budget
  · rw [if_pos h]
    exact ⟨⟨fun _ => h, fun _ => rfl⟩, fun s hs => by cases hs⟩
  · rw [if_neg h]
    refine ⟨⟨(fun hn => by cases hn), (fun hb => absurd hb h)⟩, ?_⟩
    intro s hs
    cases hs
    exact ⟨rfl, by omega⟩

/-- Witness for C2: with budget 20 and assembled statement 3, the pipeline
produces 12, which is feasible and returned whole. -/
theorem try_build_all_or_nothing_witness :
    try_build_result sample_pipeline 20 3 = some 12 ∧
    (12 = lowered sample_pipeline 3 ∧
      sample_pipeline.peak_regs 12 ≤ 20) :=
  ⟨by decide, (try_build_all_or_nothing sample_pipeline 20 3).2 12 (by decide)⟩

/-- C8: for every caller-provided bitmask over the `orig_ndims = 2 + ndims`
pre-canonicalization axes and every spatials-to-3D reduction, the dummy
extent vector carries the sentinel 2 exactly at the originally masked axes,
and bit `i` of the normalized mask is set exactly for the canonical axes
`i < cp_ndims` at which the reduced dummy vector still carries the
sentinel. -/
theorem normalize_mask_sentinel (to3d : List Int → List Int)
    (cp_ndims orig_ndims orig_mask : Nat) :
    (∀ j, (dummy_dims orig_ndims orig_mask).getD j 0
        = if j < orig_ndims then
            (if orig_mask.testBit j then 2 else 1)
          else 0) ∧
    (∀ i, (normalize_mask to3d cp_ndims orig_ndims orig_mask).testBit i
        = (decide (i < cp_ndims) &&
            decide ((to3d (dummy_dims orig_ndims orig_mask)).getD i 0
              = 2))) := by
  constructor
  · intro j
    by_cases hj : j < orig_ndims
    · rw [if_pos hj]
      have hlen : j < (dummy_dims orig_ndims orig_mask).length := by
        simpa [dummy_dims] using hj
      rw [List.getD_eq_getElem _ _ hlen]
      simp [dummy_dims]
    · rw [if_neg hj]
      apply List.getD_eq_default
      simp [dummy_dims]
      omega
  · intro i
    unfold normalize_mask
    rw [mask_foldl_testBit]
    simp

end PoolingIR
